import Mathlib

/-
Verification of the background-noise estimator of echopy
(echopy/processing/get_background.py, function derobertis).

The embedding works over exact rationals.  Floating-point values of the
source are modelled as ideal rationals together with an explicit
not-a-number element (type Val below); IEEE not-a-number propagation is
modelled by the Val operations (arithmetic with nan yields nan, ordered
comparisons against nan are false).  Infinities are not modelled: the one
place the source could produce one (log10 of exactly zero) is unreachable
because non-positive ranges are replaced by nan beforehand.

Rational arithmetic is routed through mkRat-based helper functions
(qadd, qsub, qmul) so that concrete runs of the embedded program reduce
inside the kernel; the theorems qadd_eq, qsub_eq, qmul_eq prove that the
helpers agree with the ordinary field operations on the rationals, and the
algebraic development uses them through these equations.

The estimator delegates two-dimensional resampling to echopy.resample
(functions rs.twod and rs.full).  That module is not part of the sources
verified here, so, following the interface description of the spec, the
bin-aggregation operation (rs.twod) is passed to the estimator as an
explicit function argument, and the inverse up-sampling (rs.full) is
modelled from the spec.  A concrete model of the aggregation (twodModel)
is provided for running the estimator on concrete inputs.
-/

/-- Rational addition routed through mkRat so the kernel can evaluate it;
agrees with ordinary addition by qadd_eq. -/
def qadd (a b : ℚ) : ℚ := mkRat (a.num * b.den + b.num * a.den) (a.den * b.den)

/-- Rational subtraction routed through mkRat; agrees with ordinary
subtraction by qsub_eq. -/
def qsub (a b : ℚ) : ℚ := mkRat (a.num * b.den - b.num * a.den) (a.den * b.den)

/-- Rational multiplication routed through mkRat; agrees with ordinary
multiplication by qmul_eq. -/
def qmul (a b : ℚ) : ℚ := mkRat (a.num * b.num) (a.den * b.den)

/-- Rational division by a natural number routed through mkRat (used only by
the spec-modelled bin average). -/
def qdivNat (a : ℚ) (k : Nat) : ℚ := mkRat a.num (a.den * k)

/-- Kernel-evaluable ceiling of a rational. -/
def qceil (a : ℚ) : Int := -((-a.num).fdiv a.den)

theorem qadd_eq (a b : ℚ) : qadd a b = a + b := by rw [qadd, Rat.add_def']

theorem qsub_eq (a b : ℚ) : qsub a b = a - b := by rw [qsub, Rat.sub_def']

theorem qmul_eq (a b : ℚ) : qmul a b = a * b := by
  rw [qmul, Rat.mkRat_eq_div]
  push_cast
  rw [div_mul_eq_div_div, mul_comm (a.num : ℚ) (b.num : ℚ), mul_div_assoc,
    Rat.num_div_den, mul_comm, mul_div_assoc, Rat.num_div_den]

theorem qceil_eq (a : ℚ) : qceil a = ⌈a⌉ := by
  rw [qceil, Int.fdiv_eq_ediv _ (Int.ofNat_nonneg _)]
  rw [show -a.num = (-a).num by simp, show a.den = (-a).den by simp]
  rw [← Rat.floor_def, Int.floor_neg, neg_neg]

/-- A floating-point cell value: either not-a-number or a (rational) number. -/
inductive Val where
  | nan : Val
  | num (q : ℚ) : Val
  deriving DecidableEq

/-- IEEE-style addition: nan propagates. -/
def Val.add : Val → Val → Val
  | Val.num a, Val.num b => Val.num (qadd a b)
  | _, _ => Val.nan

/-- IEEE-style subtraction: nan propagates. -/
def Val.sub : Val → Val → Val
  | Val.num a, Val.num b => Val.num (qsub a b)
  | _, _ => Val.nan

/-- IEEE-style multiplication: nan propagates. -/
def Val.mul : Val → Val → Val
  | Val.num a, Val.num b => Val.num (qmul a b)
  | _, _ => Val.nan

/-- The np.isnan test. -/
def Val.isnan : Val → Bool
  | Val.nan => true
  | Val.num _ => false

/-- The comparison v > t used by np.ma.masked_greater: false on nan
(IEEE comparisons with nan are false). -/
def Val.gtb : Val → ℚ → Bool
  | Val.nan, _ => false
  | Val.num q, t => decide (t < q)

theorem Val.add_nan (v : Val) : Val.add v Val.nan = Val.nan := by
  cases v <;> rfl

theorem Val.sub_nan (v : Val) : Val.sub v Val.nan = Val.nan := by
  cases v <;> rfl

/-- Cancellation used for the constancy and ceiling claims:
(v + t) - t returns v for numeric v, and nan stays nan. -/
theorem Val.sub_add_cancel (v : Val) (t : ℚ) :
    Val.sub (Val.add v (Val.num t)) (Val.num t) = v := by
  cases v with
  | nan => rfl
  | num a =>
    simp only [Val.add, Val.sub, Val.num.injEq]
    rw [qadd_eq, qsub_eq]
    ring

/-- A 2D array of cell values, as a list of rows. -/
abbrev Grid := List (List Val)

/-- Embedding of np.arange(start, stop, step): the arithmetic sequence
start, start+step, ... of length max 0 (ceil ((stop-start)/step)); empty for
step = 0 (where numpy raises, never exercised here since strides are
positive). -/
def arange (start stop step : ℚ) : List ℚ :=
  if step = 0 then []
  else (List.range (qceil (mkRat ((qsub stop start).num * step.den *
    (if step.num < 0 then -1 else 1)) ((qsub stop start).den * step.num.natAbs))).toNat).map
    fun k => qadd start (qmul k step)

/-- Transparency bridge: for a nonzero step, arange is the textbook
sequence of length ceil ((stop - start) / step). -/
theorem arange_eq (start stop step : ℚ) (h : step ≠ 0) :
    arange start stop step
      = (List.range (⌈(stop - start) / step⌉).toNat).map fun k => start + k * step := by
  have hd1 : (((stop - start).den : ℚ)) ≠ 0 := by
    exact_mod_cast (stop - start).den_nz
  have hd2 : ((step.den : ℚ)) ≠ 0 := by
    exact_mod_cast step.den_nz
  have hn2 : ((step.num : ℚ)) ≠ 0 := by
    exact_mod_cast Rat.num_ne_zero.mpr h
  have key : ((((stop - start).num : ℚ)) * step.den) / ((((stop - start).den : ℚ)) * step.num)
      = (stop - start) / step := by
    rw [show (stop - start) / step
        = ((((stop - start).num : ℚ)) / (stop - start).den) / (((step.num : ℚ)) / step.den) by
      rw [Rat.num_div_den, Rat.num_div_den]]
    field_simp
  have hnum : mkRat ((qsub stop start).num * step.den * (if step.num < 0 then -1 else 1))
      ((qsub stop start).den * step.num.natAbs) = (stop - start) / step := by
    rw [Rat.mkRat_eq_div, qsub_eq]
    rcases lt_or_le step.num 0 with hneg | hpos
    · have habs : ((step.num.natAbs : ℚ)) = -((step.num : ℚ)) := by
        rw [Int.cast_natAbs, abs_of_neg hneg]
        push_cast
        ring
      rw [if_pos hneg]
      push_cast [habs]
      rw [show (((stop - start).den : ℚ)) * -((step.num : ℚ))
          = -((((stop - start).den : ℚ)) * step.num) by ring,
        show (((stop - start).num : ℚ)) * step.den * -1
          = -((((stop - start).num : ℚ)) * step.den) by ring,
        neg_div_neg_eq]
      exact key
    · have habs : ((step.num.natAbs : ℚ)) = ((step.num : ℚ)) := by
        rw [Int.cast_natAbs, abs_of_nonneg hpos]
      rw [if_neg (not_lt.mpr hpos)]
      push_cast [habs]
      rw [mul_one]
      exact key
  rw [arange, if_neg h, hnum, qceil_eq]
  refine List.map_congr_left fun k _ => ?_
  rw [qadd_eq, qmul_eq]

/-- Number of columns of a grid (length of its first row; grids coming from
numpy arrays are rectangular). -/
def ncols (g : Grid) : Nat := (g.headD []).length

/-- Column j of a grid (entries past the end of a row read as nan; on the
rectangular grids of the source this never happens). -/
def col (g : Grid) (j : Nat) : List Val := g.map fun row => row.getD j Val.nan

/-- Line 60-61 of the source: r_ = r.copy(); r_[r <= 0] = np.nan.
A nan entry of r compares false against 0 and is left alone (it is nan
already). -/
def maskNonpos (r : List Val) : List Val :=
  r.map fun v =>
    match v with
    | Val.num q => if q ≤ 0 then Val.nan else Val.num q
    | Val.nan => Val.nan

/-- Embedding of np.log10 on a cell: nan propagates, non-positive arguments
give nan (log10 of a negative float is nan; the argument 0, which numpy takes
to -inf, is unreachable here because maskNonpos runs first).  The numeric
log10 itself is transcendental and is supplied as a function argument. -/
def vlog10 (log10 : ℚ → ℚ) : Val → Val
  | Val.nan => Val.nan
  | Val.num q => if 0 < q then Val.num (log10 q) else Val.nan

/-- Line 62 of the source: TVG = 20*np.log10(r_) + 2*alpha*r_, elementwise
over the masked range vector. -/
def tvgArr (alpha : ℚ) (log10 : ℚ → ℚ) (r_ : List Val) : List Val :=
  r_.map fun v =>
    Val.add (Val.mul (Val.num 20) (vlog10 log10 v)) (Val.mul (Val.num (qmul 2 alpha)) v)

/-- Line 65 of the source: Sv - np.vstack(TVG), the column vector TVG
broadcast across the row: entry (i, j) is Sv[i][j] - TVG[i]. -/
def subRows (g : Grid) (t : List Val) : Grid :=
  (List.range g.length).map fun i =>
    (g.getD i []).map fun x => Val.sub x (t.getD i Val.nan)

/-- Line 90 of the source: bgn_noTVG + np.vstack(TVG). -/
def addRows (g : Grid) (t : List Val) : Grid :=
  (List.range g.length).map fun i =>
    (g.getD i []).map fun x => Val.add x (t.getD i Val.nan)

/-- Line 77 of the source, one column of jbool:
np.isnan(Sv_noTVGrs).all(axis=0). -/
def colAllNaN (g : Grid) (j : Nat) : Bool := (col g j).all Val.isnan

/-- Line 77 of the source, the full jbool vector. -/
def jboolOf (g : Grid) : List Bool := (List.range (ncols g)).map fun j => colAllNaN g j

/-- Line 78 of the source: Sv_noTVGrs[:, jbool] = 0 (columns that are
entirely nan are temporarily set to 0). -/
def zeroCols (g : Grid) : Grid :=
  (List.range g.length).map fun i =>
    (List.range ((g.getD i []).length)).map fun j =>
      if colAllNaN g j then Val.num 0 else (g.getD i []).getD j Val.nan

/-- Embedding of np.nanmin over a vector: minimum of the numeric entries,
nan if there is none. -/
def nanmin (l : List Val) : Val :=
  match l.filterMap (fun v => match v with | Val.num q => some q | Val.nan => none) with
  | [] => Val.nan
  | q :: qs => Val.num (qs.foldl min q)

/-- Line 79 of the source: np.nanmin(Sv_noTVGrs, 0), columnwise. -/
def nanminCols (g : Grid) : List Val :=
  (List.range (ncols g)).map fun j => nanmin (col g j)

/-- Line 80 of the source: bgn_noTVGrs[jbool] = np.nan (restore nan on the
fully-invalid columns). -/
def restoreNaN (v : List Val) (jb : List Bool) : List Val :=
  (List.range v.length).map fun j => if jb.getD j false then Val.nan else v.getD j Val.nan

/-- Lines 77-80 of the source combined: the per-column noise floor of the
resampled grid. -/
def bgnVec (g : Grid) : List Val := restoreNaN (nanminCols (zeroCols g)) (jboolOf g)

/-- Line 81 of the source: np.tile(bgn_noTVGrs, [len(Sv_noTVGrs), 1]). -/
def noiseFloorGrid (g : Grid) : Grid := List.replicate g.length (bgnVec g)

/-- Lines 84-86 of the source: mask = np.ma.masked_greater(grid, bgnmax).mask;
grid[mask] = bgnmax.  Entries strictly greater than bgnmax are replaced by
bgnmax; nan is not greater than anything so it stays nan; when nothing is
masked the assignment is a no-op, which coincides with the elementwise map. -/
def clipGrid (g : Grid) (bgnmax : ℚ) : Grid :=
  g.map fun row => row.map fun v => if Val.gtb v bgnmax then Val.num bgnmax else v

/-- Modelled from the spec: the bin lookup of the resampler interface.
Bins along one axis are the half-open intervals between consecutive
coarse-axis points; findBin returns the index k with axis[k] <= x <
axis[k+1], none when no enclosing bin exists (coordinate outside the coarse
axis range). -/
def findBin (axis : List ℚ) (x : ℚ) : Option Nat :=
  (List.range (axis.length - 1)).reverse.find? fun k =>
    decide (axis.getD k 0 ≤ x) && decide (x < axis.getD (k + 1) 0)

/-- Modelled from the spec: rs.full (upsample2d) of echopy.resample, which
is not among the sources here.  Per the spec interface, each fine cell reads
the value of its enclosing coarse bin, and the companion mask is true where
no enclosing bin exists (such cells carry nan). -/
def full (coarse : Grid) (iaxrs jaxrs iax jax : List ℚ) : Grid × List (List Bool) :=
  (iax.map fun x => jax.map fun y =>
      match findBin iaxrs x, findBin jaxrs y with
      | some bi, some bj => (coarse.getD bi []).getD bj Val.nan
      | _, _ => Val.nan,
   iax.map fun x => jax.map fun y =>
      (findBin iaxrs x).isNone || (findBin jaxrs y).isNone)

/-- Modelled from the spec: the average of the contributing (numeric)
samples of a bin; nan when the bin has no contributing samples.  The spec
prescribes power-domain (logarithmic) averaging for rs.twod with log=True;
the decibel-to-power round trip is transcendental and not representable over
the rationals, so the model averages the cell values directly.  On every bin
whose contributing samples share one common value the two averages coincide,
and all concrete runs in this development only exercise such bins. -/
def vmean (l : List Val) : Val :=
  match l.filterMap (fun v => match v with | Val.num q => some q | Val.nan => none) with
  | [] => Val.nan
  | q :: qs => Val.num (qdivNat ((q :: qs).foldl qadd 0) (q :: qs).length)

/-- Modelled from the spec: the samples of source grid g contributing to
coarse bin (bi, bj): the cells whose axis coordinates fall in the enclosing
intervals of the destination axes. -/
def binSamples (g : Grid) (iax jax iaxrs jaxrs : List ℚ) (bi bj : Nat) : List Val :=
  ((List.range g.length).filter fun i => findBin iaxrs (iax.getD i 0) == some bi).flatMap
    fun i => ((List.range ((g.getD i []).length)).filter
      fun j => findBin jaxrs (jax.getD j 0) == some bj).map
        fun j => (g.getD i []).getD j Val.nan

/-- Modelled from the spec: rs.twod (bin2d) of echopy.resample, which is not
among the sources here.  Bins are delimited by consecutive pairs of the
destination axis points (K+1 points make K bins per axis); each bin holds
the average of its contributing samples, and the companion mask marks bins
with no contributing samples.  The log flag selects power-domain averaging
in the real resampler; see vmean for its rational model.  The estimator
itself is parameterised over this operation, and this model is used to run
it on concrete inputs. -/
def twodModel (g : Grid) (iax jax iaxrs jaxrs : List ℚ) (_lg : Bool) :
    Grid × List (List Bool) :=
  ((List.range (iaxrs.length - 1)).map fun bi =>
      (List.range (jaxrs.length - 1)).map fun bj =>
        vmean (binSamples g iax jax iaxrs jaxrs bi bj),
   (List.range (iaxrs.length - 1)).map fun bi =>
      (List.range (jaxrs.length - 1)).map fun bj =>
        (binSamples g iax jax iaxrs jaxrs bi bj).all Val.isnan)

/-- Lines 59-90 of the source: the non-degenerate branch of derobertis.
The bin-aggregation rs.twod is the function argument twod (only component 0
of its result is consumed, as in the source); rs.full is the spec model
above.  The third component counts warnings emitted (none on this branch). -/
def derobertisMain
    (twod : Grid → List ℚ → List ℚ → List ℚ → List ℚ → Bool → Grid × List (List Bool))
    (log10 : ℚ → ℚ) (Sv : Grid) (iax jax : List ℚ) (m n : ℚ) (r : List Val)
    (alpha : ℚ) (bgnmax : ℚ) : Grid × List (List Bool) × Nat :=
  let r_ := maskNonpos r
  let TVG := tvgArr alpha log10 r_
  let Sv_noTVG := subRows Sv TVG
  let iaxrs := arange (iax.headD 0) (iax.getLastD 0) m
  let jaxrs := arange (jax.headD 0) (jax.getLastD 0) n
  let Sv_noTVGrs := (twod Sv_noTVG iax jax iaxrs jaxrs true).1
  let bgn_noTVGrs := clipGrid (noiseFloorGrid Sv_noTVGrs) bgnmax
  let fm := full bgn_noTVGrs iaxrs jaxrs iax jax
  (addRows fm.1 TVG, fm.2, 0)

/-- Embedding of derobertis (get_background.py lines 36-98).  Arguments
follow the source signature (Sv, iax, jax, m, n, r, alpha, bgnmax), preceded
by the two external dependencies: the bin-aggregation operation twod
(rs.twod) and the numeric log10 used by the TVG formula.  Returns the noise
grid, the mask, and the number of warnings emitted: the guard of line 72
routes degenerate resampling axes to the all-nan, all-masked result of lines
94-97 with exactly one warning, and every other input to the main branch
with no warning. -/
def derobertis
    (twod : Grid → List ℚ → List ℚ → List ℚ → List ℚ → Bool → Grid × List (List Bool))
    (log10 : ℚ → ℚ) (Sv : Grid) (iax jax : List ℚ) (m n : ℚ) (r : List Val)
    (alpha : ℚ) (bgnmax : ℚ) : Grid × List (List Bool) × Nat :=
  if 1 < (arange (iax.headD 0) (iax.getLastD 0) m).length
      ∧ 1 < (arange (jax.headD 0) (jax.getLastD 0) n).length then
    derobertisMain twod log10 Sv iax jax m n r alpha bgnmax
  else
    (Sv.map fun row => row.map fun _ => Val.nan,
     Sv.map fun row => row.map fun _ => true, 1)

/-- Program state for the mutation-frame claim: the four input arrays of
derobertis together with the working copy r_ built by lines 60-61 (the only
statements of the function whose assignment target is an already-bound
array derived from an input; every later in-place update of the source hits
arrays freshly created inside the computation, which the pure definitions
above model directly). -/
structure BgState where
  Sv : Grid
  iax : List ℚ
  jax : List ℚ
  r : List Val
  rCopy : List Val

/-- The boolean index vector r <= 0 of line 61 (false on nan entries:
IEEE comparisons with nan are false). -/
def leMask (r : List Val) : List Bool :=
  r.map fun v =>
    match v with
    | Val.num q => decide (q ≤ 0)
    | Val.nan => false

/-- Masked assignment arr[mask] = nan of line 61. -/
def maskAssign (v : List Val) (mask : List Bool) : List Val :=
  List.zipWith (fun x b => if b then Val.nan else x) v mask

/-- Line 60 of the source: r_ = r.copy(). -/
def stmtCopy (s : BgState) : BgState := { s with rCopy := s.r }

/-- Line 61 of the source: r_[r <= 0] = np.nan (the index is computed from
r, the assignment hits the copy). -/
def stmtMask (s : BgState) : BgState :=
  { s with rCopy := maskAssign s.rCopy (leMask s.r) }

theorem getD_lt {α : Type} (l : List α) (d : α) (i : Nat) (h : i < l.length) :
    l.getD i d = l[i] := by
  simp [List.getD_eq_getElem?_getD, List.getElem?_eq_getElem h]

theorem getD_ge {α : Type} (l : List α) (d : α) (i : Nat) (h : l.length ≤ i) :
    l.getD i d = d := by
  simp [List.getD_eq_getElem?_getD, List.getElem?_eq_none h]

theorem getD_num_lt {l : List Val} {i : Nat} {q : ℚ}
    (h : l.getD i Val.nan = Val.num q) : i < l.length := by
  by_contra hc
  push_neg at hc
  rw [getD_ge _ _ _ hc] at h
  exact Val.noConfusion h

theorem getD_map_nan (f : Val → Val) (hf : f Val.nan = Val.nan) (l : List Val) (i : Nat) :
    (l.map f).getD i Val.nan = f (l.getD i Val.nan) := by
  rcases lt_or_le i l.length with h | h
  · rw [getD_lt _ _ _ (by simpa using h), getD_lt _ _ _ h, List.getElem_map]
  · rw [getD_ge _ _ _ (by simpa using h), getD_ge _ _ _ h, hf]

theorem getD_map_comm {α β : Type} (f : α → β) (dA : α) (dB : β) (hf : f dA = dB)
    (l : List α) (i : Nat) : (l.map f).getD i dB = f (l.getD i dA) := by
  rcases lt_or_le i l.length with h | h
  · rw [getD_lt _ _ _ (by simpa using h), getD_lt _ _ _ h, List.getElem_map]
  · rw [getD_ge _ _ _ (by simpa using h), getD_ge _ _ _ h, hf]

theorem getD_range_map {β : Type} (f : Nat → β) (d : β) (n i : Nat) (h : i < n) :
    ((List.range n).map f).getD i d = f i := by
  rw [getD_lt _ _ _ (by simpa using h), List.getElem_map, List.getElem_range]

theorem maskNonpos_getD_pos {r : List Val} {i : Nat} {q : ℚ}
    (h : r.getD i Val.nan = Val.num q) (hq : 0 < q) :
    (maskNonpos r).getD i Val.nan = Val.num q := by
  rw [maskNonpos, getD_map_nan _ rfl, h]
  simp [not_le.mpr hq]

theorem maskNonpos_getD_nonpos {r : List Val} {i : Nat} {q : ℚ}
    (h : r.getD i Val.nan = Val.num q) (hq : q ≤ 0) :
    (maskNonpos r).getD i Val.nan = Val.nan := by
  rw [maskNonpos, getD_map_nan _ rfl, h]
  simp [hq]

theorem maskNonpos_getD_nan {r : List Val} {i : Nat}
    (h : r.getD i Val.nan = Val.nan) :
    (maskNonpos r).getD i Val.nan = Val.nan := by
  rw [maskNonpos, getD_map_nan _ rfl, h]

theorem tvgArr_getD (alpha : ℚ) (log10 : ℚ → ℚ) (r_ : List Val) (i : Nat) :
    (tvgArr alpha log10 r_).getD i Val.nan
      = Val.add (Val.mul (Val.num 20) (vlog10 log10 (r_.getD i Val.nan)))
          (Val.mul (Val.num (qmul 2 alpha)) (r_.getD i Val.nan)) := by
  rw [tvgArr, getD_map_nan _ rfl]

theorem tvg_num {r : List Val} {alpha : ℚ} {log10 : ℚ → ℚ} {i : Nat} {q : ℚ}
    (h : r.getD i Val.nan = Val.num q) (hq : 0 < q) :
    (tvgArr alpha log10 (maskNonpos r)).getD i Val.nan
      = Val.num (20 * log10 q + 2 * alpha * q) := by
  rw [tvgArr_getD, maskNonpos_getD_pos h hq, vlog10, if_pos hq]
  simp only [Val.mul, Val.add, Val.num.injEq]
  rw [qmul_eq, qmul_eq, qmul_eq, qadd_eq]

theorem tvg_nan_of_nonpos {r : List Val} {alpha : ℚ} {log10 : ℚ → ℚ} {i : Nat} {q : ℚ}
    (h : r.getD i Val.nan = Val.num q) (hq : q ≤ 0) :
    (tvgArr alpha log10 (maskNonpos r)).getD i Val.nan = Val.nan := by
  rw [tvgArr_getD, maskNonpos_getD_nonpos h hq]
  rfl

theorem tvg_nan_of_nan {r : List Val} {alpha : ℚ} {log10 : ℚ → ℚ} {i : Nat}
    (h : r.getD i Val.nan = Val.nan) :
    (tvgArr alpha log10 (maskNonpos r)).getD i Val.nan = Val.nan := by
  rw [tvgArr_getD, maskNonpos_getD_nan h]
  rfl

theorem subRows_length (g : Grid) (t : List Val) : (subRows g t).length = g.length := by
  simp [subRows]

theorem subRows_getD (g : Grid) (t : List Val) (i : Nat) (h : i < g.length) :
    (subRows g t).getD i [] = (g.getD i []).map fun x => Val.sub x (t.getD i Val.nan) := by
  rw [subRows, getD_lt _ _ _ (by simpa using h)]
  simp

theorem addRows_length (g : Grid) (t : List Val) : (addRows g t).length = g.length := by
  simp [addRows]

theorem addRows_getD (g : Grid) (t : List Val) (i : Nat) (h : i < g.length) :
    (addRows g t).getD i [] = (g.getD i []).map fun x => Val.add x (t.getD i Val.nan) := by
  rw [addRows, getD_lt _ _ _ (by simpa using h)]
  simp

theorem subRows_entry (g : Grid) (t : List Val) (i j : Nat) :
    ((subRows g t).getD i []).getD j Val.nan
      = Val.sub ((g.getD i []).getD j Val.nan) (t.getD i Val.nan) := by
  rcases lt_or_le i g.length with h2 | h2
  · rw [subRows_getD _ _ _ h2, getD_map_comm _ Val.nan Val.nan rfl]
  · have hrow : (subRows g t).getD i [] = [] := by
      rw [subRows]
      exact getD_ge _ _ _ (by simpa using h2)
    rw [hrow, getD_ge _ _ _ h2]
    rfl

theorem addRows_entry (g : Grid) (t : List Val) (i j : Nat) :
    ((addRows g t).getD i []).getD j Val.nan
      = Val.add ((g.getD i []).getD j Val.nan) (t.getD i Val.nan) := by
  rcases lt_or_le i g.length with h2 | h2
  · rw [addRows_getD _ _ _ h2, getD_map_comm _ Val.nan Val.nan rfl]
  · have hrow : (addRows g t).getD i [] = [] := by
      rw [addRows]
      exact getD_ge _ _ _ (by simpa using h2)
    rw [hrow, getD_ge _ _ _ h2]
    rfl

theorem derobertis_eq_main
    (twod : Grid → List ℚ → List ℚ → List ℚ → List ℚ → Bool → Grid × List (List Bool))
    (log10 : ℚ → ℚ) (Sv : Grid) (iax jax : List ℚ) (m n : ℚ) (r : List Val)
    (alpha : ℚ) (bgnmax : ℚ)
    (h : 1 < (arange (iax.headD 0) (iax.getLastD 0) m).length
      ∧ 1 < (arange (jax.headD 0) (jax.getLastD 0) n).length) :
    derobertis twod log10 Sv iax jax m n r alpha bgnmax
      = derobertisMain twod log10 Sv iax jax m n r alpha bgnmax := by
  rw [derobertis, if_pos h]

theorem derobertis_eq_else
    (twod : Grid → List ℚ → List ℚ → List ℚ → List ℚ → Bool → Grid × List (List Bool))
    (log10 : ℚ → ℚ) (Sv : Grid) (iax jax : List ℚ) (m n : ℚ) (r : List Val)
    (alpha : ℚ) (bgnmax : ℚ)
    (h : ¬ (1 < (arange (iax.headD 0) (iax.getLastD 0) m).length
      ∧ 1 < (arange (jax.headD 0) (jax.getLastD 0) n).length)) :
    derobertis twod log10 Sv iax jax m n r alpha bgnmax
      = (Sv.map fun row => row.map fun _ => Val.nan,
         Sv.map fun row => row.map fun _ => true, 1) := by
  rw [derobertis, if_neg h]

theorem derobertisMain_fst
    (twod : Grid → List ℚ → List ℚ → List ℚ → List ℚ → Bool → Grid × List (List Bool))
    (log10 : ℚ → ℚ) (Sv : Grid) (iax jax : List ℚ) (m n : ℚ) (r : List Val)
    (alpha : ℚ) (bgnmax : ℚ) :
    (derobertisMain twod log10 Sv iax jax m n r alpha bgnmax).1
      = addRows (full (clipGrid (noiseFloorGrid
          ((twod (subRows Sv (tvgArr alpha log10 (maskNonpos r))) iax jax
            (arange (iax.headD 0) (iax.getLastD 0) m)
            (arange (jax.headD 0) (jax.getLastD 0) n) true).1)) bgnmax)
          (arange (iax.headD 0) (iax.getLastD 0) m)
          (arange (jax.headD 0) (jax.getLastD 0) n) iax jax).1
          (tvgArr alpha log10 (maskNonpos r)) := rfl

theorem derobertisMain_snd
    (twod : Grid → List ℚ → List ℚ → List ℚ → List ℚ → Bool → Grid × List (List Bool))
    (log10 : ℚ → ℚ) (Sv : Grid) (iax jax : List ℚ) (m n : ℚ) (r : List Val)
    (alpha : ℚ) (bgnmax : ℚ) :
    (derobertisMain twod log10 Sv iax jax m n r alpha bgnmax).2.1
      = (full (clipGrid (noiseFloorGrid
          ((twod (subRows Sv (tvgArr alpha log10 (maskNonpos r))) iax jax
            (arange (iax.headD 0) (iax.getLastD 0) m)
            (arange (jax.headD 0) (jax.getLastD 0) n) true).1)) bgnmax)
          (arange (iax.headD 0) (iax.getLastD 0) m)
          (arange (jax.headD 0) (jax.getLastD 0) n) iax jax).2 := rfl

theorem full_fst_getD (coarse : Grid) (iaxrs jaxrs iax jax : List ℚ) {i j : Nat}
    (hi : i < iax.length) (hj : j < jax.length) :
    ((full coarse iaxrs jaxrs iax jax).1.getD i []).getD j Val.nan
      = match findBin iaxrs iax[i], findBin jaxrs jax[j] with
        | some bi, some bj => (coarse.getD bi []).getD bj Val.nan
        | _, _ => Val.nan := by
  have h1 : (full coarse iaxrs jaxrs iax jax).1.getD i []
      = jax.map fun y =>
          match findBin iaxrs iax[i], findBin jaxrs y with
          | some bi, some bj => (coarse.getD bi []).getD bj Val.nan
          | _, _ => Val.nan := by
    simp only [full]
    rw [getD_lt _ _ _ (by simpa using hi), List.getElem_map]
  rw [h1, getD_lt _ _ _ (by simpa using hj), List.getElem_map]

theorem full_snd_getD (coarse : Grid) (iaxrs jaxrs iax jax : List ℚ) {i j : Nat}
    (hi : i < iax.length) (hj : j < jax.length) :
    ((full coarse iaxrs jaxrs iax jax).2.getD i []).getD j true
      = ((findBin iaxrs iax[i]).isNone || (findBin jaxrs jax[j]).isNone) := by
  have h1 : (full coarse iaxrs jaxrs iax jax).2.getD i []
      = jax.map fun y => ((findBin iaxrs iax[i]).isNone || (findBin jaxrs y).isNone) := by
    simp only [full]
    rw [getD_lt _ _ _ (by simpa using hi), List.getElem_map]
  rw [h1, getD_lt _ _ _ (by simpa using hj), List.getElem_map]

theorem findBin_bound {axis : List ℚ} {x : ℚ} {k : Nat}
    (h : findBin axis x = some k) : k + 1 < axis.length := by
  have hmem := List.mem_of_find?_eq_some h
  rw [List.mem_reverse, List.mem_range] at hmem
  omega

theorem clipGrid_getD_cases (g : Grid) (t : ℚ) (bi bj : Nat) :
    ((clipGrid g t).getD bi []).getD bj Val.nan = Val.nan
    ∨ ∃ q : ℚ, q ≤ t ∧ ((clipGrid g t).getD bi []).getD bj Val.nan = Val.num q := by
  rcases lt_or_le bi g.length with hbi | hbi
  · have hrow : (clipGrid g t).getD bi []
        = (g.getD bi []).map fun v => if Val.gtb v t then Val.num t else v := by
      rw [clipGrid, getD_map_comm _ [] [] rfl]
    rw [hrow, getD_map_comm _ Val.nan Val.nan (by rfl)]
    rcases hv : (g.getD bi []).getD bj Val.nan with _ | q
    · left
      simp [Val.gtb]
    · by_cases hq : t < q
      · right
        exact ⟨t, le_refl t, by simp [Val.gtb, hq]⟩
      · right
        exact ⟨q, le_of_not_lt hq, by simp [Val.gtb, hq]⟩
  · have hrow : (clipGrid g t).getD bi [] = [] := by
      rw [clipGrid]
      exact getD_ge _ _ _ (by simpa using hbi)
    rw [hrow]
    left
    rfl

theorem clipGrid_replicate (g : Grid) (t : ℚ) (bi : Nat) (h : bi < g.length) :
    (clipGrid (noiseFloorGrid g) t).getD bi []
      = (bgnVec g).map fun v => if Val.gtb v t then Val.num t else v := by
  rw [clipGrid, noiseFloorGrid, getD_lt _ _ _ (by simpa using h), List.getElem_map,
    List.getElem_replicate]

theorem ncols_zeroCols (g : Grid) : ncols (zeroCols g) = ncols g := by
  cases g with
  | nil => rfl
  | cons r0 gs =>
    show ((zeroCols (r0 :: gs)).headD []).length = _
    rw [zeroCols]
    rw [show (r0 :: gs).length = gs.length + 1 from rfl, List.range_succ_eq_map]
    simp [ncols]

theorem col_zeroCols (g : Grid) (j : Nat) (h : colAllNaN g j = false) :
    col (zeroCols g) j = col g j := by
  apply List.ext_getElem?
  intro i
  rw [col, col, zeroCols, List.getElem?_map, List.getElem?_map, List.getElem?_map]
  rcases lt_or_le i g.length with hi | hi
  · rw [List.getElem?_range hi, List.getElem?_eq_getElem hi]
    rw [show (g[i] : List Val) = g.getD i [] from (getD_lt _ _ _ hi).symm]
    simp only [Option.map_some']
    congr 1
    rcases lt_or_le j (g.getD i []).length with hj | hj
    · rw [getD_range_map _ _ _ _ hj, h]
      rfl
    · rw [getD_ge _ _ _ (by simpa using hj), getD_ge _ _ _ hj]
  · rw [List.getElem?_eq_none (by simpa using hi), List.getElem?_eq_none hi]
    rfl

theorem bgnVec_length (g : Grid) : (bgnVec g).length = ncols g := by
  simp [bgnVec, restoreNaN, nanminCols, ncols_zeroCols]

theorem derobertis_row_nan
    (twod : Grid → List ℚ → List ℚ → List ℚ → List ℚ → Bool → Grid × List (List Bool))
    (log10 : ℚ → ℚ) (Sv : Grid) (iax jax : List ℚ) (m n : ℚ) (r : List Val)
    (alpha : ℚ) (bgnmax : ℚ) (i : Nat)
    (hcond : 1 < (arange (iax.headD 0) (iax.getLastD 0) m).length
      ∧ 1 < (arange (jax.headD 0) (jax.getLastD 0) n).length)
    (htvg : (tvgArr alpha log10 (maskNonpos r)).getD i Val.nan = Val.nan) :
    ∀ x ∈ (derobertis twod log10 Sv iax jax m n r alpha bgnmax).1.getD i [], x = Val.nan := by
  rw [derobertis_eq_main _ _ _ _ _ _ _ _ _ _ hcond, derobertisMain_fst]
  intro x hx
  set fine := (full (clipGrid (noiseFloorGrid
      ((twod (subRows Sv (tvgArr alpha log10 (maskNonpos r))) iax jax
        (arange (iax.headD 0) (iax.getLastD 0) m)
        (arange (jax.headD 0) (jax.getLastD 0) n) true).1)) bgnmax)
      (arange (iax.headD 0) (iax.getLastD 0) m)
      (arange (jax.headD 0) (jax.getLastD 0) n) iax jax).1 with hfine
  rcases lt_or_le i fine.length with hi | hi
  · rw [addRows_getD _ _ _ hi, htvg] at hx
    rcases List.mem_map.mp hx with ⟨y, _, hy⟩
    rw [← hy, Val.add_nan]
  · rw [addRows, getD_ge _ _ _ (by simpa using hi)] at hx
    exact absurd hx (List.not_mem_nil x)

theorem clipGrid_entry (g : Grid) (t : ℚ) (i j : Nat) :
    ((clipGrid g t).getD i []).getD j Val.nan
      = (fun v => if Val.gtb v t then Val.num t else v) ((g.getD i []).getD j Val.nan) := by
  rw [clipGrid, getD_map_comm _ [] [] rfl, getD_map_comm _ Val.nan Val.nan rfl]

theorem full_fst_length (coarse : Grid) (iaxrs jaxrs iax jax : List ℚ) :
    (full coarse iaxrs jaxrs iax jax).1.length = iax.length := by
  simp [full]

theorem full_snd_length (coarse : Grid) (iaxrs jaxrs iax jax : List ℚ) :
    (full coarse iaxrs jaxrs iax jax).2.length = iax.length := by
  simp [full]

theorem full_fst_row_length (coarse : Grid) (iaxrs jaxrs iax jax : List ℚ) (i : Nat)
    (h : i < iax.length) : ((full coarse iaxrs jaxrs iax jax).1.getD i []).length
      = jax.length := by
  have h1 : (full coarse iaxrs jaxrs iax jax).1.getD i []
      = jax.map fun y =>
          match findBin iaxrs iax[i], findBin jaxrs y with
          | some bi, some bj => (coarse.getD bi []).getD bj Val.nan
          | _, _ => Val.nan := by
    simp only [full]
    rw [getD_lt _ _ _ (by simpa using h), List.getElem_map]
  rw [h1, List.length_map]

theorem full_snd_row_length (coarse : Grid) (iaxrs jaxrs iax jax : List ℚ) (i : Nat)
    (h : i < iax.length) : ((full coarse iaxrs jaxrs iax jax).2.getD i []).length
      = jax.length := by
  have h1 : (full coarse iaxrs jaxrs iax jax).2.getD i []
      = jax.map fun y => ((findBin iaxrs iax[i]).isNone || (findBin jaxrs y).isNone) := by
    simp only [full]
    rw [getD_lt _ _ _ (by simpa using h), List.getElem_map]
  rw [h1, List.length_map]

/-- The shape of a 2D array: the list of its row lengths (two numpy arrays
have equal shape exactly when these agree, rows and row lengths both). -/
def shape {α : Type} (g : List (List α)) : List Nat := g.map List.length

theorem maskAssign_leMask (r : List Val) : maskAssign r (leMask r) = maskNonpos r := by
  induction r with
  | nil => rfl
  | cons v rs ih =>
    cases v with
    | nan =>
      have hcons : maskAssign (Val.nan :: rs) (leMask (Val.nan :: rs))
          = Val.nan :: maskAssign rs (leMask rs) := rfl
      rw [hcons, ih]
      rfl
    | num q =>
      have hcons : maskAssign (Val.num q :: rs) (leMask (Val.num q :: rs))
          = (if decide (q ≤ 0) = true then Val.nan else Val.num q)
            :: maskAssign rs (leMask rs) := rfl
      rw [hcons, ih]
      have hrhs : maskNonpos (Val.num q :: rs)
          = (if q ≤ 0 then Val.nan else Val.num q) :: maskNonpos rs := rfl
      rw [hrhs]
      congr 1
      by_cases hq : q ≤ 0
      · simp [hq]
      · simp [hq]

/-- C8 (confirmed): derobertis never modifies its inputs.  Lines 59-61 are
the only statements whose assignment target is an array bound before them;
run as state transitions (stmtCopy, stmtMask), they leave Sv, iax, jax and r
exactly as given, the copy r_ being the only array written (its final value
is the nan-masked range maskNonpos r that the rest of the pure computation
consumes).  Every later in-place update of the source hits arrays freshly
created inside the call, as the pure pipeline definitions record. -/
theorem derobertis_inputs_unchanged (s : BgState) :
    (stmtMask (stmtCopy s)).Sv = s.Sv
    ∧ (stmtMask (stmtCopy s)).iax = s.iax
    ∧ (stmtMask (stmtCopy s)).jax = s.jax
    ∧ (stmtMask (stmtCopy s)).r = s.r
    ∧ (stmtMask (stmtCopy s)).rCopy = maskNonpos s.r := by
  refine ⟨rfl, rfl, rfl, rfl, ?_⟩
  show maskAssign s.r (leMask s.r) = maskNonpos s.r
  exact maskAssign_leMask s.r

/-- C5 (confirmed): the per-column noise floor (lines 77-80).  A coarse
column that is entirely nan yields nan, not zero; every other column yields
the minimum over the valid entries of the original column, unaffected by the
temporary replacement of the fully-invalid columns by zero. -/
theorem noise_floor_column_spec (g : Grid) (j : Nat) (h : j < ncols g) :
    (bgnVec g).getD j Val.nan
      = if colAllNaN g j then Val.nan else nanmin (col g j) := by
  have hlen : (nanminCols (zeroCols g)).length = ncols g := by
    simp [nanminCols, ncols_zeroCols]
  rw [bgnVec, restoreNaN, hlen, getD_lt _ _ _ (by simpa using h), List.getElem_map,
    List.getElem_range]
  have hjb : (jboolOf g).getD j false = colAllNaN g j := by
    rw [jboolOf, getD_lt _ _ _ (by simpa using h), List.getElem_map, List.getElem_range]
  rw [hjb]
  by_cases hc : colAllNaN g j
  · rw [if_pos hc, if_pos hc]
  · rw [if_neg hc, if_neg hc]
    have hv : (nanminCols (zeroCols g)).getD j Val.nan = nanmin (col (zeroCols g) j) := by
      rw [nanminCols, getD_lt _ _ _ (by simpa [ncols_zeroCols] using h), List.getElem_map,
        List.getElem_range]
    rw [hv, col_zeroCols g j (by simpa using hc)]

/-- Witness for C5 on a 2-by-2 grid whose second column is entirely nan:
column 0 gets the minimum 3 of its valid entries, column 1 gets nan. -/
theorem noise_floor_column_spec_witness :
    (bgnVec [[Val.num 5, Val.nan], [Val.num 3, Val.nan]]).getD 0 Val.nan = Val.num 3
    ∧ (bgnVec [[Val.num 5, Val.nan], [Val.num 3, Val.nan]]).getD 1 Val.nan = Val.nan := by
  constructor
  · rw [noise_floor_column_spec [[Val.num 5, Val.nan], [Val.num 3, Val.nan]] 0 (by decide)]
    decide
  · rw [noise_floor_column_spec [[Val.num 5, Val.nan], [Val.num 3, Val.nan]] 1 (by decide)]
    decide

/-- C9 (confirmed): the clip of lines 84-86 is strictly one-sided: a numeric
entry is replaced by bgnmax exactly when it strictly exceeds bgnmax (a value
equal to bgnmax is untouched), a nan entry stays nan through the clip, and a
grid none of whose entries exceeds the ceiling passes through unchanged. -/
theorem clip_strict_one_sided (g : Grid) (t : ℚ) :
    (∀ i j : Nat, ∀ q : ℚ, (g.getD i []).getD j Val.nan = Val.num q →
        ((clipGrid g t).getD i []).getD j Val.nan
          = if t < q then Val.num t else Val.num q)
    ∧ (∀ i j : Nat, (g.getD i []).getD j Val.nan = Val.nan →
        ((clipGrid g t).getD i []).getD j Val.nan = Val.nan)
    ∧ ((∀ row ∈ g, ∀ v ∈ row, Val.gtb v t = false) → clipGrid g t = g) := by
  refine ⟨?_, ?_, ?_⟩
  · intro i j q hq
    rw [clipGrid_entry, hq]
    by_cases hlt : t < q
    · simp [Val.gtb, hlt]
    · simp [Val.gtb, hlt]
  · intro i j hn
    rw [clipGrid_entry, hn]
    rfl
  · intro hall
    rw [clipGrid]
    have hrow : ∀ row ∈ g, (row.map fun v => if Val.gtb v t then Val.num t else v) = row := by
      intro row hr
      have hid : ∀ v ∈ row, (fun v => if Val.gtb v t then Val.num t else v) v = v := by
        intro v hv
        show (if Val.gtb v t then Val.num t else v) = v
        rw [hall row hr v hv]
        rfl
      rw [List.map_congr_left hid]
      simp
    calc g.map (fun row => row.map fun v => if Val.gtb v t then Val.num t else v)
        = g.map (fun row => row) := List.map_congr_left hrow
      _ = g := by simp

/-- Witness for C9 on a one-row grid against ceiling -125: -120 is clipped
to -125 (strictly greater), -125 itself is untouched, -130 is untouched
(one-sided: no floor), and nan stays nan. -/
theorem clip_strict_one_sided_witness :
    ((clipGrid [[Val.num (-130), Val.num (-125), Val.num (-120), Val.nan]] (-125)).getD 0
        []).getD 2 Val.nan = Val.num (-125)
    ∧ ((clipGrid [[Val.num (-130), Val.num (-125), Val.num (-120), Val.nan]] (-125)).getD 0
        []).getD 1 Val.nan = Val.num (-125)
    ∧ ((clipGrid [[Val.num (-130), Val.num (-125), Val.num (-120), Val.nan]] (-125)).getD 0
        []).getD 0 Val.nan = Val.num (-130)
    ∧ ((clipGrid [[Val.num (-130), Val.num (-125), Val.num (-120), Val.nan]] (-125)).getD 0
        []).getD 3 Val.nan = Val.nan
    ∧ clipGrid [[Val.num (-130), Val.num (-125), Val.nan]] (-125)
        = [[Val.num (-130), Val.num (-125), Val.nan]] := by
  refine ⟨?_, ?_, ?_, ?_, ?_⟩
  · rw [(clip_strict_one_sided [[Val.num (-130), Val.num (-125), Val.num (-120), Val.nan]]
      (-125)).1 0 2 (-120) (by decide)]
    decide
  · rw [(clip_strict_one_sided [[Val.num (-130), Val.num (-125), Val.num (-120), Val.nan]]
      (-125)).1 0 1 (-125) (by decide)]
    decide
  · rw [(clip_strict_one_sided [[Val.num (-130), Val.num (-125), Val.num (-120), Val.nan]]
      (-125)).1 0 0 (-130) (by decide)]
    decide
  · exact (clip_strict_one_sided [[Val.num (-130), Val.num (-125), Val.num (-120), Val.nan]]
      (-125)).2.1 0 3 (by decide)
  · exact (clip_strict_one_sided [[Val.num (-130), Val.num (-125), Val.nan]] (-125)).2.2
      (by decide)

/-- C2 (confirmed): the degenerate-geometry path.  When either resampled
axis arange(iax[0], iax[-1], m) or arange(jax[0], jax[-1], n) has fewer than
2 points, derobertis returns an all-nan grid and an all-true mask (of the
shape of Sv) and emits exactly one warning; on every other input it emits
none, so this is the sole diagnostic path, and the embedded function is
total (nothing is raised on either path). -/
theorem derobertis_degenerate_guard
    (twod : Grid → List ℚ → List ℚ → List ℚ → List ℚ → Bool → Grid × List (List Bool))
    (log10 : ℚ → ℚ) (Sv : Grid) (iax jax : List ℚ) (m n : ℚ) (r : List Val)
    (alpha : ℚ) (bgnmax : ℚ) :
    ((derobertis twod log10 Sv iax jax m n r alpha bgnmax).2.2
      = if 1 < (arange (iax.headD 0) (iax.getLastD 0) m).length
          ∧ 1 < (arange (jax.headD 0) (jax.getLastD 0) n).length then 0 else 1)
    ∧ (¬ (1 < (arange (iax.headD 0) (iax.getLastD 0) m).length
          ∧ 1 < (arange (jax.headD 0) (jax.getLastD 0) n).length) →
        (derobertis twod log10 Sv iax jax m n r alpha bgnmax).1
            = Sv.map (fun row => row.map fun _ => Val.nan)
        ∧ (derobertis twod log10 Sv iax jax m n r alpha bgnmax).2.1
            = Sv.map (fun row => row.map fun _ => true)
        ∧ (∀ row ∈ (derobertis twod log10 Sv iax jax m n r alpha bgnmax).1,
            ∀ x ∈ row, x = Val.nan)
        ∧ (∀ row ∈ (derobertis twod log10 Sv iax jax m n r alpha bgnmax).2.1,
            ∀ b ∈ row, b = true)) := by
  by_cases h : 1 < (arange (iax.headD 0) (iax.getLastD 0) m).length
      ∧ 1 < (arange (jax.headD 0) (jax.getLastD 0) n).length
  · refine ⟨?_, fun hn => absurd h hn⟩
    rw [derobertis_eq_main _ _ _ _ _ _ _ _ _ _ h, if_pos h]
    rfl
  · refine ⟨?_, fun _ => ?_⟩
    · rw [derobertis_eq_else _ _ _ _ _ _ _ _ _ _ h, if_neg h]
    · rw [derobertis_eq_else _ _ _ _ _ _ _ _ _ _ h]
      refine ⟨rfl, rfl, ?_, ?_⟩
      · intro row hrow x hx
        rcases List.mem_map.mp hrow with ⟨row0, _, hrow0⟩
        rw [← hrow0] at hx
        rcases List.mem_map.mp hx with ⟨x0, _, hx0⟩
        exact hx0.symm
      · intro row hrow b hb
        rcases List.mem_map.mp hrow with ⟨row0, _, hrow0⟩
        rw [← hrow0] at hb
        rcases List.mem_map.mp hb with ⟨b0, _, hb0⟩
        exact hb0.symm

/-- Witness for C2: a 1-by-1 grid with strides larger than both axis spans
gives the all-nan, all-true, one-warning result. -/
theorem derobertis_degenerate_guard_witness :
    (derobertis twodModel (fun _ => 0) [[Val.num (-70)]] [0, 1] [0, 1] 5 5
        [Val.num 1] 0 (-125)).2.2 = 1
    ∧ (derobertis twodModel (fun _ => 0) [[Val.num (-70)]] [0, 1] [0, 1] 5 5
        [Val.num 1] 0 (-125)).1 = [[Val.nan]]
    ∧ (derobertis twodModel (fun _ => 0) [[Val.num (-70)]] [0, 1] [0, 1] 5 5
        [Val.num 1] 0 (-125)).2.1 = [[true]] := by
  have h := derobertis_degenerate_guard twodModel (fun _ => 0) [[Val.num (-70)]]
    [0, 1] [0, 1] 5 5 [Val.num 1] 0 (-125)
  refine ⟨?_, ?_, ?_⟩
  · rw [h.1]
    decide
  · rw [(h.2 (by decide)).1]
    decide
  · rw [(h.2 (by decide)).2.1]
    decide

theorem shape_eq_of_profile {α : Type} (g : List (List α)) (Sv : Grid)
    (hlen : g.length = Sv.length)
    (hrow : ∀ i : Nat, i < Sv.length → (g.getD i []).length = (Sv.getD i []).length) :
    shape g = shape Sv := by
  apply List.ext_getElem?
  intro i
  rw [shape, shape, List.getElem?_map, List.getElem?_map]
  rcases lt_or_le i Sv.length with hi | hi
  · have hig : i < g.length := by rw [hlen]; exact hi
    rw [List.getElem?_eq_getElem hig, List.getElem?_eq_getElem hi]
    simp only [Option.map_some']
    congr 1
    have hthis := hrow i hi
    rw [getD_lt _ _ _ hig, getD_lt _ _ _ hi] at hthis
    exact hthis
  · rw [List.getElem?_eq_none (by omega), List.getElem?_eq_none hi]
    rfl

/-- C3 (confirmed): shape invariance.  With axis lengths consistent with the
Sv grid, both outputs of derobertis have exactly the shape of Sv, in the
normal branch and in the degenerate branch alike.  (The up-sampling rs.full
is the spec model, whose output is one row per iax entry of jax-many cells;
the shape does not depend on the aggregation argument twod.) -/
theorem derobertis_shape
    (twod : Grid → List ℚ → List ℚ → List ℚ → List ℚ → Bool → Grid × List (List Bool))
    (log10 : ℚ → ℚ) (Sv : Grid) (iax jax : List ℚ) (m n : ℚ) (r : List Val)
    (alpha : ℚ) (bgnmax : ℚ)
    (hI : iax.length = Sv.length)
    (hJ : ∀ row ∈ Sv, row.length = jax.length) :
    shape (derobertis twod log10 Sv iax jax m n r alpha bgnmax).1 = shape Sv
    ∧ shape (derobertis twod log10 Sv iax jax m n r alpha bgnmax).2.1 = shape Sv := by
  by_cases h : 1 < (arange (iax.headD 0) (iax.getLastD 0) m).length
      ∧ 1 < (arange (jax.headD 0) (jax.getLastD 0) n).length
  · rw [derobertis_eq_main _ _ _ _ _ _ _ _ _ _ h, derobertisMain_fst, derobertisMain_snd]
    constructor
    · apply shape_eq_of_profile
      · rw [addRows_length, full_fst_length, hI]
      · intro i hi
        have hiax : i < iax.length := by rw [hI]; exact hi
        have hmem : Sv.getD i [] ∈ Sv := by
          rw [getD_lt _ _ _ hi]
          exact List.getElem_mem _
        rw [addRows_getD _ _ _ (by rw [full_fst_length]; exact hiax), List.length_map,
          full_fst_row_length _ _ _ _ _ _ hiax, hJ _ hmem]
    · apply shape_eq_of_profile
      · rw [full_snd_length, hI]
      · intro i hi
        have hiax : i < iax.length := by rw [hI]; exact hi
        have hmem : Sv.getD i [] ∈ Sv := by
          rw [getD_lt _ _ _ hi]
          exact List.getElem_mem _
        rw [full_snd_row_length _ _ _ _ _ _ hiax, hJ _ hmem]
  · rw [derobertis_eq_else _ _ _ _ _ _ _ _ _ _ h]
    constructor
    · show shape (Sv.map fun row => row.map fun _ => Val.nan) = shape Sv
      rw [shape, shape, List.map_map]
      exact List.map_congr_left fun row _ => by simp
    · show shape (Sv.map fun row => row.map fun _ => true) = shape Sv
      rw [shape, shape, List.map_map]
      exact List.map_congr_left fun row _ => by simp

/-- Witness for C3 on a 3-by-3 grid resampled with unit strides. -/
theorem derobertis_shape_witness :
    shape (derobertis twodModel (fun _ => 0)
        [[Val.num (-100), Val.num (-100), Val.num (-100)],
         [Val.num (-100), Val.num (-100), Val.num (-100)],
         [Val.num (-100), Val.num (-100), Val.num (-100)]]
        [0, 1, 2] [0, 1, 2] 1 1 [Val.num 1, Val.num 1, Val.num 1] 1 (-125)).1
      = shape ([[Val.num (-100), Val.num (-100), Val.num (-100)],
         [Val.num (-100), Val.num (-100), Val.num (-100)],
         [Val.num (-100), Val.num (-100), Val.num (-100)]] : Grid)
    ∧ shape (derobertis twodModel (fun _ => 0)
        [[Val.num (-100), Val.num (-100), Val.num (-100)],
         [Val.num (-100), Val.num (-100), Val.num (-100)],
         [Val.num (-100), Val.num (-100), Val.num (-100)]]
        [0, 1, 2] [0, 1, 2] 1 1 [Val.num 1, Val.num 1, Val.num 1] 1 (-125)).2.1
      = shape ([[Val.num (-100), Val.num (-100), Val.num (-100)],
         [Val.num (-100), Val.num (-100), Val.num (-100)],
         [Val.num (-100), Val.num (-100), Val.num (-100)]] : Grid) :=
  derobertis_shape twodModel (fun _ => 0) _ [0, 1, 2] [0, 1, 2] 1 1
    [Val.num 1, Val.num 1, Val.num 1] 1 (-125) (by decide) (by decide)

/-- C4 (confirmed): invalid-range propagation.  If r[i] <= 0 then, on the
non-degenerate branch, row i of the returned bgn grid (whose length is that
of jax) consists entirely of nan: TVG[i] is nan and is added back to the
whole row at the end.  Nothing is raised: the embedded function is total. -/
theorem derobertis_invalid_range_row
    (twod : Grid → List ℚ → List ℚ → List ℚ → List ℚ → Bool → Grid × List (List Bool))
    (log10 : ℚ → ℚ) (Sv : Grid) (iax jax : List ℚ) (m n : ℚ) (r : List Val)
    (alpha : ℚ) (bgnmax : ℚ) (i : Nat) (q : ℚ)
    (hcond : 1 < (arange (iax.headD 0) (iax.getLastD 0) m).length
      ∧ 1 < (arange (jax.headD 0) (jax.getLastD 0) n).length)
    (hq : r.getD i Val.nan = Val.num q) (hq0 : q ≤ 0) (hi : i < iax.length) :
    ((derobertis twod log10 Sv iax jax m n r alpha bgnmax).1.getD i []).length = jax.length
    ∧ ∀ x ∈ (derobertis twod log10 Sv iax jax m n r alpha bgnmax).1.getD i [],
        x = Val.nan := by
  constructor
  · rw [derobertis_eq_main _ _ _ _ _ _ _ _ _ _ hcond, derobertisMain_fst,
      addRows_getD _ _ _ (by rw [full_fst_length]; exact hi), List.length_map,
      full_fst_row_length _ _ _ _ _ _ hi]
  · exact derobertis_row_nan _ _ _ _ _ _ _ _ _ _ _ hcond (tvg_nan_of_nonpos hq hq0)

/-- Witness for C4: with r[0] = -1 the whole first output row is nan. -/
theorem derobertis_invalid_range_row_witness :
    ((derobertis twodModel (fun _ => 0)
        [[Val.num (-100), Val.num (-100), Val.num (-100)],
         [Val.num (-100), Val.num (-100), Val.num (-100)],
         [Val.num (-100), Val.num (-100), Val.num (-100)]]
        [0, 1, 2] [0, 1, 2] 1 1 [Val.num (-1), Val.num 1, Val.num 1] 1 (-125)).1.getD 0
          []).length = ([0, 1, 2] : List ℚ).length
    ∧ ∀ x ∈ (derobertis twodModel (fun _ => 0)
        [[Val.num (-100), Val.num (-100), Val.num (-100)],
         [Val.num (-100), Val.num (-100), Val.num (-100)],
         [Val.num (-100), Val.num (-100), Val.num (-100)]]
        [0, 1, 2] [0, 1, 2] 1 1 [Val.num (-1), Val.num 1, Val.num 1] 1 (-125)).1.getD 0 [],
        x = Val.nan :=
  derobertis_invalid_range_row twodModel (fun _ => 0) _ [0, 1, 2] [0, 1, 2] 1 1
    [Val.num (-1), Val.num 1, Val.num 1] 1 (-125) 0 (-1)
    (by decide) (by decide) (by decide) (by decide)

/-- C10 (implicit, confirmed): a nan entry already present in r behaves like
an invalid range: the r <= 0 test does not match it (the boolean index is
false there), the masked copy keeps nan, TVG[i] is nan, and on the
non-degenerate branch the whole output row i (of jax-many cells) is nan,
with nothing raised: the same outcome as for a non-positive range entry. -/
theorem derobertis_nan_range_row
    (twod : Grid → List ℚ → List ℚ → List ℚ → List ℚ → Bool → Grid × List (List Bool))
    (log10 : ℚ → ℚ) (Sv : Grid) (iax jax : List ℚ) (m n : ℚ) (r : List Val)
    (alpha : ℚ) (bgnmax : ℚ) (i : Nat)
    (hcond : 1 < (arange (iax.headD 0) (iax.getLastD 0) m).length
      ∧ 1 < (arange (jax.headD 0) (jax.getLastD 0) n).length)
    (hq : r.getD i Val.nan = Val.nan) (hi : i < iax.length) :
    (leMask r).getD i false = false
    ∧ (maskNonpos r).getD i Val.nan = Val.nan
    ∧ (tvgArr alpha log10 (maskNonpos r)).getD i Val.nan = Val.nan
    ∧ ((derobertis twod log10 Sv iax jax m n r alpha bgnmax).1.getD i []).length = jax.length
    ∧ ∀ x ∈ (derobertis twod log10 Sv iax jax m n r alpha bgnmax).1.getD i [],
        x = Val.nan := by
  refine ⟨?_, maskNonpos_getD_nan hq, tvg_nan_of_nan hq, ?_, ?_⟩
  · rw [leMask, getD_map_comm _ Val.nan false rfl, hq]
  · rw [derobertis_eq_main _ _ _ _ _ _ _ _ _ _ hcond, derobertisMain_fst,
      addRows_getD _ _ _ (by rw [full_fst_length]; exact hi), List.length_map,
      full_fst_row_length _ _ _ _ _ _ hi]
  · exact derobertis_row_nan _ _ _ _ _ _ _ _ _ _ _ hcond (tvg_nan_of_nan hq)

/-- Witness for C10: with r[0] = nan the whole first output row is nan and
the r <= 0 index is false at 0. -/
theorem derobertis_nan_range_row_witness :
    (leMask [Val.nan, Val.num 1, Val.num 1]).getD 0 false = false
    ∧ (maskNonpos [Val.nan, Val.num 1, Val.num 1]).getD 0 Val.nan = Val.nan
    ∧ (tvgArr 1 (fun _ => 0) (maskNonpos [Val.nan, Val.num 1, Val.num 1])).getD 0 Val.nan
        = Val.nan
    ∧ ((derobertis twodModel (fun _ => 0)
        [[Val.num (-100), Val.num (-100), Val.num (-100)],
         [Val.num (-100), Val.num (-100), Val.num (-100)],
         [Val.num (-100), Val.num (-100), Val.num (-100)]]
        [0, 1, 2] [0, 1, 2] 1 1 [Val.nan, Val.num 1, Val.num 1] 1 (-125)).1.getD 0
          []).length = ([0, 1, 2] : List ℚ).length
    ∧ ∀ x ∈ (derobertis twodModel (fun _ => 0)
        [[Val.num (-100), Val.num (-100), Val.num (-100)],
         [Val.num (-100), Val.num (-100), Val.num (-100)],
         [Val.num (-100), Val.num (-100), Val.num (-100)]]
        [0, 1, 2] [0, 1, 2] 1 1 [Val.nan, Val.num 1, Val.num 1] 1 (-125)).1.getD 0 [],
        x = Val.nan :=
  derobertis_nan_range_row twodModel (fun _ => 0) _ [0, 1, 2] [0, 1, 2] 1 1
    [Val.nan, Val.num 1, Val.num 1] 1 (-125) 0 (by decide) (by decide) (by decide)

/-- C7 (confirmed): the TVG formula.  For r[i] = q > 0 the correction is
exactly 20*log10(q) + 2*alpha*q, and nan for q <= 0; the grid handed to the
resampler subtracts exactly this per-row quantity from Sv (entry by entry),
and on the non-degenerate branch the returned grid is the up-sampled clipped
noise floor with exactly the same TVG vector added back per row. -/
theorem derobertis_tvg_formula
    (twod : Grid → List ℚ → List ℚ → List ℚ → List ℚ → Bool → Grid × List (List Bool))
    (log10 : ℚ → ℚ) (Sv : Grid) (iax jax : List ℚ) (m n : ℚ) (r : List Val)
    (alpha : ℚ) (bgnmax : ℚ) (i : Nat) (q : ℚ)
    (hq : r.getD i Val.nan = Val.num q) :
    (0 < q → (tvgArr alpha log10 (maskNonpos r)).getD i Val.nan
        = Val.num (20 * log10 q + 2 * alpha * q))
    ∧ (q ≤ 0 → (tvgArr alpha log10 (maskNonpos r)).getD i Val.nan = Val.nan)
    ∧ (∀ i2 j2 : Nat,
        ((subRows Sv (tvgArr alpha log10 (maskNonpos r))).getD i2 []).getD j2 Val.nan
          = Val.sub ((Sv.getD i2 []).getD j2 Val.nan)
              ((tvgArr alpha log10 (maskNonpos r)).getD i2 Val.nan))
    ∧ (∀ g : Grid, ∀ i2 j2 : Nat,
        ((addRows g (tvgArr alpha log10 (maskNonpos r))).getD i2 []).getD j2 Val.nan
          = Val.add ((g.getD i2 []).getD j2 Val.nan)
              ((tvgArr alpha log10 (maskNonpos r)).getD i2 Val.nan))
    ∧ (1 < (arange (iax.headD 0) (iax.getLastD 0) m).length
        ∧ 1 < (arange (jax.headD 0) (jax.getLastD 0) n).length →
        (derobertis twod log10 Sv iax jax m n r alpha bgnmax).1
          = addRows (full (clipGrid (noiseFloorGrid
              ((twod (subRows Sv (tvgArr alpha log10 (maskNonpos r))) iax jax
                (arange (iax.headD 0) (iax.getLastD 0) m)
                (arange (jax.headD 0) (jax.getLastD 0) n) true).1)) bgnmax)
              (arange (iax.headD 0) (iax.getLastD 0) m)
              (arange (jax.headD 0) (jax.getLastD 0) n) iax jax).1
              (tvgArr alpha log10 (maskNonpos r))) := by
  refine ⟨fun h0 => tvg_num hq h0, fun h0 => tvg_nan_of_nonpos hq h0, ?_, ?_, ?_⟩
  · intro i2 j2
    exact subRows_entry Sv (tvgArr alpha log10 (maskNonpos r)) i2 j2
  · intro g i2 j2
    exact addRows_entry g (tvgArr alpha log10 (maskNonpos r)) i2 j2
  · intro hcond
    rw [derobertis_eq_main _ _ _ _ _ _ _ _ _ _ hcond, derobertisMain_fst]

/-- Witness for C7 with r[0] = 100, a log10 taking 100 to 2 and alpha = 1:
TVG[0] = 20*2 + 2*1*100, and the corrected grid subtracts exactly this
value from Sv[0][0]. -/
theorem derobertis_tvg_formula_witness :
    ((tvgArr 1 (fun _ => 2) (maskNonpos [Val.num 100, Val.num 100, Val.num 100])).getD 0
        Val.nan = Val.num (20 * 2 + 2 * 1 * 100))
    ∧ ((subRows [[Val.num (-70)]] (tvgArr 1 (fun _ => 2)
        (maskNonpos [Val.num 100, Val.num 100, Val.num 100]))).getD 0 []).getD 0 Val.nan
      = Val.sub (Val.num (-70)) (Val.num 240) := by
  have h := derobertis_tvg_formula twodModel (fun _ => 2) [[Val.num (-70)]] [0, 1, 2]
    [0, 1, 2] 1 1 [Val.num 100, Val.num 100, Val.num 100] 1 (-125) 0 100 (by decide)
  refine ⟨h.1 (by decide), ?_⟩
  rw [h.2.2.1 0 0]
  decide

/-- Counterexample to C1 as stated: a 3-by-3 constant grid of -100 dB with
ranges 1 m, alpha = 1 (so TVG = 2 everywhere, using that log10 1 = 0) and
the default ceiling -125.  The coarse estimate at the bin enclosing cell
(0,0) is -102, which exceeds -125 pre-clip and is clamped there; yet the
returned finite value at the unmasked cell (0,0) is -123 = -125 + TVG,
which is strictly above bgnmax, so bgn[0,0] <= bgnmax fails. -/
theorem derobertis_ceiling_cex :
    (((derobertis twodModel (fun _ => 0)
        [[Val.num (-100), Val.num (-100), Val.num (-100)],
         [Val.num (-100), Val.num (-100), Val.num (-100)],
         [Val.num (-100), Val.num (-100), Val.num (-100)]]
        [0, 1, 2] [0, 1, 2] 1 1 [Val.num 1, Val.num 1, Val.num 1] 1 (-125)).1.getD 0
          []).getD 0 Val.nan = Val.num (-123))
    ∧ (((derobertis twodModel (fun _ => 0)
        [[Val.num (-100), Val.num (-100), Val.num (-100)],
         [Val.num (-100), Val.num (-100), Val.num (-100)],
         [Val.num (-100), Val.num (-100), Val.num (-100)]]
        [0, 1, 2] [0, 1, 2] 1 1 [Val.num 1, Val.num 1, Val.num 1] 1 (-125)).2.1.getD 0
          []).getD 0 true = false)
    ∧ (((noiseFloorGrid ((twodModel (subRows
        [[Val.num (-100), Val.num (-100), Val.num (-100)],
         [Val.num (-100), Val.num (-100), Val.num (-100)],
         [Val.num (-100), Val.num (-100), Val.num (-100)]]
        (tvgArr 1 (fun _ => 0) (maskNonpos [Val.num 1, Val.num 1, Val.num 1])))
        [0, 1, 2] [0, 1, 2]
        (arange (([0, 1, 2] : List ℚ).headD 0) (([0, 1, 2] : List ℚ).getLastD 0) 1)
        (arange (([0, 1, 2] : List ℚ).headD 0) (([0, 1, 2] : List ℚ).getLastD 0) 1)
        true).1)).getD 0 []).getD 0 Val.nan = Val.num (-102))
    ∧ ((-125 : ℚ) < -102)
    ∧ ¬ ((-123 : ℚ) ≤ -125) := by
  decide

/-- C1 (corrected): the ceiling holds for the clipped coarse estimate, not
for the returned grid: step 11 adds the TVG correction back, so the output
itself can exceed bgnmax (see the counterexample).  Amended claim: on the
non-degenerate branch, at every position the TVG-corrected output
bgn[i,j] - TVG[i] never exceeds bgnmax: it is nan or a number at most
bgnmax — in particular wherever the coarse estimate exceeded bgnmax
pre-clip, what was clamped to bgnmax is this TVG-corrected value. -/
theorem derobertis_ceiling_amended
    (twod : Grid → List ℚ → List ℚ → List ℚ → List ℚ → Bool → Grid × List (List Bool))
    (log10 : ℚ → ℚ) (Sv : Grid) (iax jax : List ℚ) (m n : ℚ) (r : List Val)
    (alpha : ℚ) (bgnmax : ℚ) (i j : Nat)
    (hcond : 1 < (arange (iax.headD 0) (iax.getLastD 0) m).length
      ∧ 1 < (arange (jax.headD 0) (jax.getLastD 0) n).length) :
    Val.sub (((derobertis twod log10 Sv iax jax m n r alpha bgnmax).1.getD i []).getD j
        Val.nan) ((tvgArr alpha log10 (maskNonpos r)).getD i Val.nan) = Val.nan
    ∨ ∃ q2 : ℚ, q2 ≤ bgnmax
        ∧ Val.sub (((derobertis twod log10 Sv iax jax m n r alpha bgnmax).1.getD i
            []).getD j Val.nan) ((tvgArr alpha log10 (maskNonpos r)).getD i Val.nan)
          = Val.num q2 := by
  rw [derobertis_eq_main _ _ _ _ _ _ _ _ _ _ hcond, derobertisMain_fst, addRows_entry]
  rcases hTi : (tvgArr alpha log10 (maskNonpos r)).getD i Val.nan with _ | t
  · left
    rw [Val.add_nan]
    rfl
  · rw [Val.sub_add_cancel]
    rcases lt_or_le i iax.length with hi | hi
    · rcases lt_or_le j jax.length with hj | hj
      · rw [full_fst_getD _ _ _ _ _ hi hj]
        rcases findBin (arange (iax.headD 0) (iax.getLastD 0) m) iax[i] with _ | bi
        · left
          rfl
        · rcases findBin (arange (jax.headD 0) (jax.getLastD 0) n) jax[j] with _ | bj
          · left
            rfl
          · exact clipGrid_getD_cases _ bgnmax bi bj
      · have hrow : ((full (clipGrid (noiseFloorGrid
            ((twod (subRows Sv (tvgArr alpha log10 (maskNonpos r))) iax jax
              (arange (iax.headD 0) (iax.getLastD 0) m)
              (arange (jax.headD 0) (jax.getLastD 0) n) true).1)) bgnmax)
            (arange (iax.headD 0) (iax.getLastD 0) m)
            (arange (jax.headD 0) (jax.getLastD 0) n) iax jax).1.getD i []).getD j Val.nan
            = Val.nan := by
          apply getD_ge
          rw [full_fst_row_length _ _ _ _ _ _ hi]
          exact hj
        rw [hrow]
        left
        rfl
    · have hrow : (full (clipGrid (noiseFloorGrid
          ((twod (subRows Sv (tvgArr alpha log10 (maskNonpos r))) iax jax
            (arange (iax.headD 0) (iax.getLastD 0) m)
            (arange (jax.headD 0) (jax.getLastD 0) n) true).1)) bgnmax)
          (arange (iax.headD 0) (iax.getLastD 0) m)
          (arange (jax.headD 0) (jax.getLastD 0) n) iax jax).1.getD i [] = [] := by
        apply getD_ge
        rw [full_fst_length]
        exact hi
      rw [hrow]
      left
      rfl

/-- Witness for C1 (amended) at the counterexample input: at the unmasked
cell (0,0) the TVG-corrected output is a number not exceeding -125. -/
theorem derobertis_ceiling_amended_witness :
    Val.sub (((derobertis twodModel (fun _ => 0)
        [[Val.num (-100), Val.num (-100), Val.num (-100)],
         [Val.num (-100), Val.num (-100), Val.num (-100)],
         [Val.num (-100), Val.num (-100), Val.num (-100)]]
        [0, 1, 2] [0, 1, 2] 1 1 [Val.num 1, Val.num 1, Val.num 1] 1 (-125)).1.getD 0
          []).getD 0 Val.nan)
        ((tvgArr 1 (fun _ => 0) (maskNonpos [Val.num 1, Val.num 1, Val.num 1])).getD 0
          Val.nan) = Val.nan
    ∨ ∃ q2 : ℚ, q2 ≤ -125
        ∧ Val.sub (((derobertis twodModel (fun _ => 0)
            [[Val.num (-100), Val.num (-100), Val.num (-100)],
             [Val.num (-100), Val.num (-100), Val.num (-100)],
             [Val.num (-100), Val.num (-100), Val.num (-100)]]
            [0, 1, 2] [0, 1, 2] 1 1 [Val.num 1, Val.num 1, Val.num 1] 1 (-125)).1.getD 0
              []).getD 0 Val.nan)
            ((tvgArr 1 (fun _ => 0) (maskNonpos [Val.num 1, Val.num 1, Val.num 1])).getD 0
              Val.nan) = Val.num q2 :=
  derobertis_ceiling_amended twodModel (fun _ => 0)
    [[Val.num (-100), Val.num (-100), Val.num (-100)],
     [Val.num (-100), Val.num (-100), Val.num (-100)],
     [Val.num (-100), Val.num (-100), Val.num (-100)]]
    [0, 1, 2] [0, 1, 2] 1 1 [Val.num 1, Val.num 1, Val.num 1] 1 (-125) 0 0 (by decide)

/-- Counterexample to C6 as stated: a 4-by-3 constant grid of -100 dB with
r = [-1, 1, 1, 1] and alpha = 1.  Cells (0,0) and (1,0) are both unmasked
(mask false), yet the TVG-corrected outputs differ: row 0 has an invalid
range, so bgn[0,0] - TVG[0] is nan while bgn[1,0] - TVG[1] is the number
-125 — and nan equals no number, under IEEE comparison not even itself. -/
theorem derobertis_constancy_cex :
    (((derobertis twodModel (fun _ => 0)
        [[Val.num (-100), Val.num (-100), Val.num (-100)],
         [Val.num (-100), Val.num (-100), Val.num (-100)],
         [Val.num (-100), Val.num (-100), Val.num (-100)],
         [Val.num (-100), Val.num (-100), Val.num (-100)]]
        [0, 1, 2, 3] [0, 1, 2] 1 1 [Val.num (-1), Val.num 1, Val.num 1, Val.num 1] 1
        (-125)).2.1.getD 0 []).getD 0 true = false)
    ∧ (((derobertis twodModel (fun _ => 0)
        [[Val.num (-100), Val.num (-100), Val.num (-100)],
         [Val.num (-100), Val.num (-100), Val.num (-100)],
         [Val.num (-100), Val.num (-100), Val.num (-100)],
         [Val.num (-100), Val.num (-100), Val.num (-100)]]
        [0, 1, 2, 3] [0, 1, 2] 1 1 [Val.num (-1), Val.num 1, Val.num 1, Val.num 1] 1
        (-125)).2.1.getD 1 []).getD 0 true = false)
    ∧ Val.sub (((derobertis twodModel (fun _ => 0)
        [[Val.num (-100), Val.num (-100), Val.num (-100)],
         [Val.num (-100), Val.num (-100), Val.num (-100)],
         [Val.num (-100), Val.num (-100), Val.num (-100)],
         [Val.num (-100), Val.num (-100), Val.num (-100)]]
        [0, 1, 2, 3] [0, 1, 2] 1 1 [Val.num (-1), Val.num 1, Val.num 1, Val.num 1] 1
        (-125)).1.getD 0 []).getD 0 Val.nan)
        ((tvgArr 1 (fun _ => 0)
          (maskNonpos [Val.num (-1), Val.num 1, Val.num 1, Val.num 1])).getD 0 Val.nan)
      = Val.nan
    ∧ Val.sub (((derobertis twodModel (fun _ => 0)
        [[Val.num (-100), Val.num (-100), Val.num (-100)],
         [Val.num (-100), Val.num (-100), Val.num (-100)],
         [Val.num (-100), Val.num (-100), Val.num (-100)],
         [Val.num (-100), Val.num (-100), Val.num (-100)]]
        [0, 1, 2, 3] [0, 1, 2] 1 1 [Val.num (-1), Val.num 1, Val.num 1, Val.num 1] 1
        (-125)).1.getD 1 []).getD 0 Val.nan)
        ((tvgArr 1 (fun _ => 0)
          (maskNonpos [Val.num (-1), Val.num 1, Val.num 1, Val.num 1])).getD 1 Val.nan)
      = Val.num (-125)
    ∧ ¬ (Val.sub (((derobertis twodModel (fun _ => 0)
        [[Val.num (-100), Val.num (-100), Val.num (-100)],
         [Val.num (-100), Val.num (-100), Val.num (-100)],
         [Val.num (-100), Val.num (-100), Val.num (-100)],
         [Val.num (-100), Val.num (-100), Val.num (-100)]]
        [0, 1, 2, 3] [0, 1, 2] 1 1 [Val.num (-1), Val.num 1, Val.num 1, Val.num 1] 1
        (-125)).1.getD 0 []).getD 0 Val.nan)
        ((tvgArr 1 (fun _ => 0)
          (maskNonpos [Val.num (-1), Val.num 1, Val.num 1, Val.num 1])).getD 0 Val.nan)
      = Val.sub (((derobertis twodModel (fun _ => 0)
        [[Val.num (-100), Val.num (-100), Val.num (-100)],
         [Val.num (-100), Val.num (-100), Val.num (-100)],
         [Val.num (-100), Val.num (-100), Val.num (-100)],
         [Val.num (-100), Val.num (-100), Val.num (-100)]]
        [0, 1, 2, 3] [0, 1, 2] 1 1 [Val.num (-1), Val.num 1, Val.num 1, Val.num 1] 1
        (-125)).1.getD 1 []).getD 0 Val.nan)
        ((tvgArr 1 (fun _ => 0)
          (maskNonpos [Val.num (-1), Val.num 1, Val.num 1, Val.num 1])).getD 1 Val.nan)) := by
  decide

/-- C6 (corrected): constancy along the range axis.  As stated the claim
fails when an unmasked row has an invalid range (see the counterexample:
one side is nan, the other a number).  Amended claim: under the stated
conditions and additionally valid positive ranges r[i1] > 0 and r[i2] > 0
(finite TVG), and with the aggregation output covering the coarse row bins
as the spec interface prescribes, the TVG-corrected outputs agree:
bgn[i1,j] - TVG[i1] = bgn[i2,j] - TVG[i2], because the tiled noise floor is
constant along the range axis before up-sampling. -/
theorem derobertis_constancy_amended
    (twod : Grid → List ℚ → List ℚ → List ℚ → List ℚ → Bool → Grid × List (List Bool))
    (log10 : ℚ → ℚ) (Sv : Grid) (iax jax : List ℚ) (m n : ℚ) (r : List Val)
    (alpha : ℚ) (bgnmax : ℚ) (i1 i2 j : Nat) (q1 q2 : ℚ)
    (hcond : 1 < (arange (iax.headD 0) (iax.getLastD 0) m).length
      ∧ 1 < (arange (jax.headD 0) (jax.getLastD 0) n).length)
    (hrows : (arange (iax.headD 0) (iax.getLastD 0) m).length - 1
      ≤ ((twod (subRows Sv (tvgArr alpha log10 (maskNonpos r))) iax jax
          (arange (iax.headD 0) (iax.getLastD 0) m)
          (arange (jax.headD 0) (jax.getLastD 0) n) true).1).length)
    (h1 : r.getD i1 Val.nan = Val.num q1) (hq1 : 0 < q1)
    (h2 : r.getD i2 Val.nan = Val.num q2) (hq2 : 0 < q2)
    (hi1 : i1 < iax.length) (hi2 : i2 < iax.length) (hj : j < jax.length)
    (hm1 : ((derobertis twod log10 Sv iax jax m n r alpha bgnmax).2.1.getD i1 []).getD j
      true = false)
    (hm2 : ((derobertis twod log10 Sv iax jax m n r alpha bgnmax).2.1.getD i2 []).getD j
      true = false) :
    Val.sub (((derobertis twod log10 Sv iax jax m n r alpha bgnmax).1.getD i1 []).getD j
        Val.nan) ((tvgArr alpha log10 (maskNonpos r)).getD i1 Val.nan)
      = Val.sub (((derobertis twod log10 Sv iax jax m n r alpha bgnmax).1.getD i2 []).getD
        j Val.nan) ((tvgArr alpha log10 (maskNonpos r)).getD i2 Val.nan) := by
  rw [derobertis_eq_main _ _ _ _ _ _ _ _ _ _ hcond, derobertisMain_snd] at hm1 hm2
  rw [full_snd_getD _ _ _ _ _ hi1 hj] at hm1
  rw [full_snd_getD _ _ _ _ _ hi2 hj] at hm2
  rw [derobertis_eq_main _ _ _ _ _ _ _ _ _ _ hcond, derobertisMain_fst,
    addRows_entry, addRows_entry, tvg_num h1 hq1, tvg_num h2 hq2,
    Val.sub_add_cancel, Val.sub_add_cancel]
  rcases hbi1 : findBin (arange (iax.headD 0) (iax.getLastD 0) m) iax[i1] with _ | bi1
  · rw [hbi1] at hm1
    simp at hm1
  · rcases hbi2 : findBin (arange (iax.headD 0) (iax.getLastD 0) m) iax[i2] with _ | bi2
    · rw [hbi2] at hm2
      simp at hm2
    · rcases hbj : findBin (arange (jax.headD 0) (jax.getLastD 0) n) jax[j] with _ | bj
      · rw [hbj] at hm1
        simp at hm1
      · rw [full_fst_getD _ _ _ _ _ hi1 hj, full_fst_getD _ _ _ _ _ hi2 hj,
          hbi1, hbi2, hbj]
        have hlen1 : bi1 < ((twod (subRows Sv (tvgArr alpha log10 (maskNonpos r))) iax jax
            (arange (iax.headD 0) (iax.getLastD 0) m)
            (arange (jax.headD 0) (jax.getLastD 0) n) true).1).length := by
          have := findBin_bound hbi1
          omega
        have hlen2 : bi2 < ((twod (subRows Sv (tvgArr alpha log10 (maskNonpos r))) iax jax
            (arange (iax.headD 0) (iax.getLastD 0) m)
            (arange (jax.headD 0) (jax.getLastD 0) n) true).1).length := by
          have := findBin_bound hbi2
          omega
        show ((clipGrid (noiseFloorGrid
            ((twod (subRows Sv (tvgArr alpha log10 (maskNonpos r))) iax jax
              (arange (iax.headD 0) (iax.getLastD 0) m)
              (arange (jax.headD 0) (jax.getLastD 0) n) true).1)) bgnmax).getD bi1 []).getD
            bj Val.nan
          = ((clipGrid (noiseFloorGrid
            ((twod (subRows Sv (tvgArr alpha log10 (maskNonpos r))) iax jax
              (arange (iax.headD 0) (iax.getLastD 0) m)
              (arange (jax.headD 0) (jax.getLastD 0) n) true).1)) bgnmax).getD bi2 []).getD
            bj Val.nan
        rw [clipGrid_replicate _ bgnmax bi1 hlen1, clipGrid_replicate _ bgnmax bi2 hlen2]

/-- Witness for C6 (amended) on a 4-by-3 constant grid with all ranges 1:
rows 0 and 1 of column 0 are both unmasked and their TVG-corrected outputs
agree. -/
theorem derobertis_constancy_amended_witness :
    Val.sub (((derobertis twodModel (fun _ => 0)
        [[Val.num (-100), Val.num (-100), Val.num (-100)],
         [Val.num (-100), Val.num (-100), Val.num (-100)],
         [Val.num (-100), Val.num (-100), Val.num (-100)],
         [Val.num (-100), Val.num (-100), Val.num (-100)]]
        [0, 1, 2, 3] [0, 1, 2] 1 1 [Val.num 1, Val.num 1, Val.num 1, Val.num 1] 1
        (-125)).1.getD 0 []).getD 0 Val.nan)
        ((tvgArr 1 (fun _ => 0)
          (maskNonpos [Val.num 1, Val.num 1, Val.num 1, Val.num 1])).getD 0 Val.nan)
      = Val.sub (((derobertis twodModel (fun _ => 0)
        [[Val.num (-100), Val.num (-100), Val.num (-100)],
         [Val.num (-100), Val.num (-100), Val.num (-100)],
         [Val.num (-100), Val.num (-100), Val.num (-100)],
         [Val.num (-100), Val.num (-100), Val.num (-100)]]
        [0, 1, 2, 3] [0, 1, 2] 1 1 [Val.num 1, Val.num 1, Val.num 1, Val.num 1] 1
        (-125)).1.getD 1 []).getD 0 Val.nan)
        ((tvgArr 1 (fun _ => 0)
          (maskNonpos [Val.num 1, Val.num 1, Val.num 1, Val.num 1])).getD 1 Val.nan) :=
  derobertis_constancy_amended twodModel (fun _ => 0)
    [[Val.num (-100), Val.num (-100), Val.num (-100)],
     [Val.num (-100), Val.num (-100), Val.num (-100)],
     [Val.num (-100), Val.num (-100), Val.num (-100)],
     [Val.num (-100), Val.num (-100), Val.num (-100)]]
    [0, 1, 2, 3] [0, 1, 2] 1 1 [Val.num 1, Val.num 1, Val.num 1, Val.num 1] 1 (-125)
    0 1 0 1 1 (by decide) (by decide) (by decide) (by decide) (by decide) (by decide)
    (by decide) (by decide) (by decide) (by decide) (by decide)
